import Mathlib

/-!
Verification of the Bang Gang game core (src/game.ts and src/gameManager.ts).

The TypeScript source is shallowly embedded as follows:

* JS bigint is Int; bigint division truncates toward zero, so it is Int.tdiv
  (for the non-negative amounts appearing here this agrees with floor division).
* JS number fields that stay integral are Nat or Int.  The value NaN, which
  arises because advanceChamber reads the property chambers that the Game
  interface does not declare (and that createGame never sets), is modelled by
  Option Int with none standing for NaN/undefined: arithmetic on none yields
  none, and strict equality with none is false, exactly as for NaN in JS.
* Math.random() is modelled by a parameter r : Rat with 0 <= r < 1, and
  Math.floor by Int.floor.
* Dates are millisecond timestamps (Nat); Date.now() is a parameter now.
* userId.toLowerCase() is modelled by lowerStr, ASCII lower-casing, written
  with structural recursion so that concrete instances evaluate by decide.
* The registry (the channelId -> Game map) is modelled per channel as an
  Option Game: none means no game is registered for the channel.  Player
  objects are shared between players and alivePlayers in the source; since
  addPlayer rejects duplicate userIds, object identity coincides with
  userId equality, and the in-place mutation currentPlayer.isAlive = false
  is modelled by mapping markDead over both lists.
* The human-readable result strings are abstracted to the inductive Msg,
  one constructor per distinct message shape built by the source; the
  monetary values interpolated into a message are carried as fields.
  Timer handles (turnTimer, turnStartTime) are omitted: the named source
  variant never schedules a timer and only ever clears it.
-/

namespace BangGang

/-- Model of String.prototype.toLowerCase restricted to ASCII, as a
structurally recursive function so the kernel can evaluate it. -/
def lowerChar (c : Char) : Char :=
  if 'A' ≤ c ∧ c ≤ 'Z' then Char.ofNat (c.toNat + 32) else c

/-- Lower-case every character of a string. -/
def lowerStr (s : String) : String := ⟨s.data.map lowerChar⟩

/-- GameState from game.ts. -/
inductive GameState where
  | waiting
  | active
  | finished
deriving DecidableEq

/-- Player record from game.ts. -/
structure Player where
  userId : String
  displayName : String
  isAlive : Bool
  entryAmount : Int
deriving DecidableEq

/-- Game record from game.ts.  The field chambers models the property of the
same name that advanceChamber and getDeathProbability read: the Game
interface never declares it and createGame never assigns it, so reading it
yields undefined; it is therefore an Option Int that is none on every game
the manager creates. -/
structure Game where
  gameId : String
  channelId : String
  spaceId : String
  state : GameState
  players : List Player
  alivePlayers : List Player
  currentTurnIndex : Nat
  poolA : Int
  poolB : Int
  houseRake : Int
  gunChamber : Option Int
  bulletChamber : Int
  consecutivePasses : Nat
  forcedShoot : Bool
  consecutiveSafeShots : Nat
  lastDeathTime : Option Nat
  createdAt : Nat
  chambers : Option Int
deriving DecidableEq

/-- GameConfig from game.ts. -/
structure GameConfig where
  minPlayers : Nat
  maxPlayers : Nat
  rakePercent : Int
  passPenalty : Int
  bonusFromB : Int
  turnTimerSeconds : Nat
  chambers : Int
  bullets : Nat
  maxSafeShots : Nat
  maxGameDurationMinutes : Nat
deriving DecidableEq

/-- DEFAULT_CONFIG from game.ts. -/
def DEFAULT_CONFIG : GameConfig :=
  { minPlayers := 2
    maxPlayers := 6
    rakePercent := 10
    passPenalty := 150000000000000
    bonusFromB := 150000000000000
    turnTimerSeconds := 10
    chambers := 6
    bullets := 1
    maxSafeShots := 18
    maxGameDurationMinutes := 30 }

/-- JS addition of 1 to a possibly-NaN number: NaN propagates. -/
def jsSucc (a : Option Int) : Option Int := a.map (· + 1)

/-- JS remainder of possibly-NaN numbers: NaN propagates, x % 0 is NaN,
and on integers the JS remainder truncates like Int.tmod. -/
def jsMod (a m : Option Int) : Option Int :=
  match a, m with
  | some x, some y => if y = 0 then none else some (Int.tmod x y)
  | _, _ => none

/-- calculateEntryDistribution from game.ts: bigint arithmetic, where the
bigint quotient truncates toward zero (Int.tdiv). -/
def calculateEntryDistribution (entryAmount : Int) (rakePercent : Int) :
    Int × Int :=
  let rake := (entryAmount * rakePercent).tdiv 100
  let toPoolA := entryAmount - rake
  (rake, toPoolA)

/-- randomBulletPosition from game.ts: Math.floor(Math.random() * 6), with
the random draw r in [0,1) passed in explicitly.  Note the hard-coded 6. -/
def randomBulletPosition (r : ℚ) : Int := ⌊r * 6⌋

/-- checkChamber from game.ts: gunChamber === bulletChamber, where a NaN
gunChamber (none) is strictly equal to nothing. -/
def checkChamber (g : Game) : Bool :=
  g.gunChamber = some g.bulletChamber

/-- advanceChamber from game.ts: gunChamber = (gunChamber + 1) % game.chambers.
Since the Game record carries no chambers value (the field is none for every
manager-created game), the JS read is undefined and the arithmetic produces
NaN, modelled by none. -/
def advanceChamber (g : Game) : Game :=
  { g with gunChamber := jsMod (jsSucc g.gunChamber) g.chambers }

/-- resetGun from game.ts: chamber back to 0, fresh random bullet. -/
def resetGun (g : Game) (r : ℚ) : Game :=
  { g with gunChamber := some 0, bulletChamber := randomBulletPosition r }

/-- createGame from gameManager.ts: the fresh Game literal placed in the
registry.  The literal has no chambers property, hence chambers := none.
(The conflict check against an existing active game guards registration and
is not needed by any claim.) -/
def createGame (gameId channelId spaceId : String) (r : ℚ) (now : Nat) :
    Game :=
  { gameId := gameId
    channelId := channelId
    spaceId := spaceId
    state := .waiting
    players := []
    alivePlayers := []
    currentTurnIndex := 0
    poolA := 0
    poolB := 0
    houseRake := 0
    gunChamber := some 0
    bulletChamber := randomBulletPosition r
    consecutivePasses := 0
    forcedShoot := false
    consecutiveSafeShots := 0
    lastDeathTime := none
    createdAt := now
    chambers := none }

/-- Failure messages of addPlayer, abstracted to tags. -/
inductive AddErr where
  | noGame
  | inProgress
  | alreadyJoined
  | gameFull
deriving DecidableEq

/-- Result of addPlayer: success flag, failure tag, and the registry entry
for the channel after the call (the source mutates the stored game, so on
success the registry holds the updated game, which is also what the call
returns). -/
structure AddResult where
  success : Bool
  err : Option AddErr
  reg : Option Game
deriving DecidableEq

/-- addPlayer from gameManager.ts. -/
def addPlayer (reg : Option Game) (userId displayName : String)
    (entryAmount : Int) (cfg : GameConfig) : AddResult :=
  match reg with
  | none => ⟨false, some .noGame, none⟩
  | some g =>
    if g.state ≠ .waiting then ⟨false, some .inProgress, some g⟩
    else if g.players.any (fun p => p.userId = userId) then
      ⟨false, some .alreadyJoined, some g⟩
    else if cfg.maxPlayers ≤ g.players.length then
      ⟨false, some .gameFull, some g⟩
    else
      let d := calculateEntryDistribution entryAmount cfg.rakePercent
      let player : Player :=
        { userId := userId, displayName := displayName, isAlive := true,
          entryAmount := entryAmount }
      let g' :=
        { g with
          players := g.players ++ [player]
          alivePlayers := g.alivePlayers ++ [player]
          poolA := g.poolA + d.2
          houseRake := g.houseRake + d.1 }
      ⟨true, none, some g'⟩

/-- Failure messages of startGame, abstracted to tags. -/
inductive StartErr where
  | noGame
  | alreadyActive
  | needMorePlayers
deriving DecidableEq

/-- Result of startGame, in the shape of AddResult. -/
structure StartResult where
  success : Bool
  err : Option StartErr
  reg : Option Game
deriving DecidableEq

/-- startGame from gameManager.ts. -/
def startGame (reg : Option Game) (r : ℚ) (cfg : GameConfig) : StartResult :=
  match reg with
  | none => ⟨false, some .noGame, none⟩
  | some g =>
    if g.state = .active then ⟨false, some .alreadyActive, some g⟩
    else if g.players.length < cfg.minPlayers then
      ⟨false, some .needMorePlayers, some g⟩
    else
      let g' :=
        resetGun
          { g with
            state := .active
            currentTurnIndex := 0
            consecutivePasses := 0
            forcedShoot := false
            consecutiveSafeShots := 0
            lastDeathTime := none } r
      ⟨true, none, some g'⟩

/-- Failure messages of handleAction, abstracted to tags. -/
inductive HAErr where
  | noGame
  | notActive
  | notYourTurn
  | alreadyEliminated
  | mustShoot
deriving DecidableEq

/-- The distinct result-message shapes handleAction builds, with the values
interpolated into the text carried as fields. -/
inductive Msg where
  | passed (forced : Bool)
  | clickSafe (bonus : Bool)
  | bangEliminated (victimId : String) (remaining : Nat)
  | bangWin (winnerId : String) (payout : Int)
  | safeShotTermination (refundPerPlayer : Int)
  | durationTermination (refundPerPlayer : Int)
deriving DecidableEq

/-- Result of handleAction: a failure leaves the registry entry unchanged; a
success carries the message, the final game snapshot handed to the onAction
callback, and the registry entry after the call (none when the game was
deleted). -/
inductive HAResult where
  | failure (e : HAErr) (reg : Option Game)
  | ok (msg : Msg) (g : Game) (reg : Option Game)
deriving DecidableEq

/-- Final game snapshot of a handleAction call, when it succeeded. -/
def HAResult.game? : HAResult → Option Game
  | .failure _ _ => none
  | .ok _ g _ => some g

/-- Registry entry for the channel after a handleAction call. -/
def HAResult.regAfter : HAResult → Option Game
  | .failure _ reg => reg
  | .ok _ _ reg => reg

/-- Message of a successful handleAction call. -/
def HAResult.msg? : HAResult → Option Msg
  | .failure _ _ => none
  | .ok m _ _ => some m

/-- Success flag of a handleAction call. -/
def HAResult.isOk : HAResult → Bool
  | .failure _ _ => false
  | .ok _ _ _ => true

/-- The two player actions. -/
inductive Action where
  | shoot
  | pass
deriving DecidableEq

/-- The case-insensitive turn-holder identity comparison of handleAction
(currentPlayer.userId.toLowerCase() === userId.toLowerCase()). -/
def turnIdentityMatches (cp : Player) (userId : String) : Prop :=
  lowerStr cp.userId = lowerStr userId

instance (cp : Player) (userId : String) :
    Decidable (turnIdentityMatches cp userId) := by
  unfold turnIdentityMatches; infer_instance

/-- The in-place mutation currentPlayer.isAlive = false, seen through both
lists that share the player object.  Identity is userId equality, which is
unique among joined players because addPlayer rejects duplicates. -/
def markDead (victimId : String) (p : Player) : Player :=
  if p.userId = victimId then { p with isAlive := false } else p

/-- The duration-ceiling test of handleAction:
(Date.now() - createdAt) / (1000 * 60) >= maxGameDurationMinutes,
cleared of the (exact) real division. -/
def durationExceeded (cfg : GameConfig) (g : Game) (now : Nat) : Prop :=
  (cfg.maxGameDurationMinutes : Int) * 60000 ≤ (now : Int) - (g.createdAt : Int)

instance (cfg : GameConfig) (g : Game) (now : Nat) :
    Decidable (durationExceeded cfg g now) := by
  unfold durationExceeded; infer_instance

/-- advanceTurn from gameManager.ts. -/
def advanceTurn (g : Game) : Game :=
  if g.alivePlayers.length = 0 then g
  else { g with currentTurnIndex := (g.currentTurnIndex + 1) % g.alivePlayers.length }

/-- The tail of handleAction shared by every action branch: the duration
ceiling, the conditional turn advance, and the final result (lines 347-378
of gameManager.ts).  playerDied and deleted record decisions of the branch
that ran. -/
def postActionPhase (cfg : GameConfig) (now : Nat) (msg : Msg)
    (playerDied deleted : Bool) (g : Game) : HAResult :=
  if g.state = .active ∧ durationExceeded cfg g now then
    let g' := { g with state := .finished }
    .ok (.durationTermination (g'.poolA.tdiv (g'.alivePlayers.length : Int)))
      g' none
  else
    let g' := if g.state = .active ∧ playerDied = false then advanceTurn g else g
    .ok msg g' (if deleted then none else some g')

/-- The compacted alive list after an elimination: alivePlayers seen through
the isAlive mutation of the victim object, then filtered, exactly as in line
281 of gameManager.ts. -/
def compactedAlive (g : Game) (victimId : String) : List Player :=
  (g.alivePlayers.map (markDead victimId)).filter (·.isAlive)

/-- The elimination block of the shoot branch (lines 277-291): flip the
victim's isAlive through the shared object, compact alivePlayers, reset the
safe-shot counter, record the death time, and rebase the turn index. -/
def eliminationUpdate (g : Game) (victimId : String) (now : Nat) : Game :=
  let players' := g.players.map (markDead victimId)
  let alive' := compactedAlive g victimId
  { g with
    players := players'
    alivePlayers := alive'
    consecutiveSafeShots := 0
    lastDeathTime := some now
    currentTurnIndex :=
      if alive'.length ≤ g.currentTurnIndex then 0 else g.currentTurnIndex }

/-- The pass branch of handleAction (lines 247-260): pay the pass penalty
into pool B, count the pass, and set forcedShoot once the whole table has
passed. -/
def passBranch (g : Game) (cfg : GameConfig) (now : Nat) : HAResult :=
  let g1 : Game :=
    { g with
      poolB := g.poolB + cfg.passPenalty
      consecutivePasses := g.consecutivePasses + 1 }
  let forced := g1.alivePlayers.length ≤ g1.consecutivePasses
  let g2 : Game := if forced then { g1 with forcedShoot := true } else g1
  postActionPhase cfg now (.passed forced) false false g2

/-- The shoot branch of handleAction (lines 261-345): reset the pass state,
then either eliminate the turn holder (with win check), or count a safe shot
(with the safe-shot ceiling, the pool B bonus and the chamber advance). -/
def shootBranch (g : Game) (cp : Player) (r : ℚ) (now : Nat)
    (cfg : GameConfig) : HAResult :=
  let g1 : Game := { g with consecutivePasses := 0, forcedShoot := false }
  if checkChamber g1 then
    let g2 := eliminationUpdate g1 cp.userId now
    let g3 : Game := { resetGun g2 r with forcedShoot := false }
    if g3.alivePlayers.length = 1 then
      let winnerId := ((g3.alivePlayers.get? 0).map (·.userId)).getD ""
      let g4 : Game := { g3 with state := .finished }
      postActionPhase cfg now (.bangWin winnerId g4.poolA) true true g4
    else
      postActionPhase cfg now
        (.bangEliminated cp.userId g3.alivePlayers.length) true false g3
  else
    let g2 : Game :=
      { g1 with consecutiveSafeShots := g1.consecutiveSafeShots + 1 }
    if cfg.maxSafeShots ≤ g2.consecutiveSafeShots then
      let g3 : Game := { g2 with state := .finished }
      postActionPhase cfg now
        (.safeShotTermination (g3.poolA.tdiv (g3.alivePlayers.length : Int)))
        false true g3
    else
      let bonus := cfg.bonusFromB ≤ g2.poolB
      let g3 : Game :=
        if bonus then
          { g2 with
            poolA := g2.poolA + cfg.bonusFromB
            poolB := g2.poolB - cfg.bonusFromB }
        else g2
      postActionPhase cfg now (.clickSafe (decide bonus)) false false
        (advanceChamber g3)

/-- handleAction from gameManager.ts (the named variant, lines 198-379).
The channel registry entry is reg; r models the Math.random() draw used if
the gun is reset; now models Date.now(). -/
def handleAction (reg : Option Game) (userId : String) (action : Action)
    (r : ℚ) (now : Nat) (cfg : GameConfig) : HAResult :=
  match reg with
  | none => .failure .noGame none
  | some g =>
    if g.state ≠ .active then .failure .notActive (some g)
    else
      match g.alivePlayers.get? g.currentTurnIndex with
      | none => .failure .notYourTurn (some g)
      | some cp =>
        if ¬ turnIdentityMatches cp userId then .failure .notYourTurn (some g)
        else if cp.isAlive = false then .failure .alreadyEliminated (some g)
        else if action = .pass ∧ g.forcedShoot then .failure .mustShoot (some g)
        else
          match action with
          | .pass => passBranch g cfg now
          | .shoot => shootBranch g cp r now cfg

/-- Failure messages of stopGame, abstracted to tags. -/
inductive StopErr where
  | noGame
  | alreadyFinished
deriving DecidableEq

/-- The refund computed by stopGame, as described by its message: either an
equal split of poolA over the alive players, or (only reachable with
poolA = 0) an equal split of poolA + houseRake over all joined players, or
no refund text at all. -/
inductive StopOutcome where
  | aliveSplit (refundPerPlayer : Int)
  | allSplit (refundPerPlayer : Int)
  | noRefund
deriving DecidableEq

/-- Result of stopGame: on success the game (set to finished) is returned to
the caller and the registry entry is deleted. -/
inductive StopResult where
  | failure (e : StopErr) (reg : Option Game)
  | ok (g : Game) (outcome : StopOutcome)
deriving DecidableEq

/-- Refund outcome of a successful stopGame call. -/
def StopResult.outcome? : StopResult → Option StopOutcome
  | .failure _ _ => none
  | .ok _ o => some o

/-- Final game of a successful stopGame call. -/
def StopResult.game? : StopResult → Option Game
  | .failure _ _ => none
  | .ok g _ => some g

/-- stopGame from gameManager.ts (lines 445-488). -/
def stopGame (reg : Option Game) : StopResult :=
  match reg with
  | none => .failure .noGame none
  | some g =>
    if g.state = .finished then .failure .alreadyFinished (some g)
    else
      let aliveCount := g.alivePlayers.length
      let outcome :=
        if 0 < aliveCount ∧ 0 < g.poolA then
          StopOutcome.aliveSplit (g.poolA.tdiv (aliveCount : Int))
        else if g.state = .waiting then
          let totalRefund := g.poolA + g.houseRake
          if 0 < g.players.length ∧ 0 < totalRefund then
            StopOutcome.allSplit (totalRefund.tdiv (g.players.length : Int))
          else StopOutcome.noRefund
        else StopOutcome.noRefund
      .ok { g with state := .finished } outcome

/-- Concrete players used to instantiate the theorems below. -/
def pA : Player := { userId := "u1", displayName := "Alpha", isAlive := true, entryAmount := 1000 }

/-- Second concrete player. -/
def pB : Player := { userId := "u2", displayName := "Beta", isAlive := true, entryAmount := 1000 }

/-- Third concrete player. -/
def pC : Player := { userId := "u3", displayName := "Gamma", isAlive := true, entryAmount := 1000 }

/-- A player whose userId has upper-case letters, for the case-sensitivity
scenario. -/
def pAlice : Player := { userId := "Alice", displayName := "Alice", isAlive := true, entryAmount := 1000 }

/-- A concrete active three-player game (bullet in the current chamber). -/
def exActive3 : Game :=
  { gameId := "game-1", channelId := "chan", spaceId := "space",
    state := .active, players := [pA, pB, pC], alivePlayers := [pA, pB, pC],
    currentTurnIndex := 0, poolA := 2700, poolB := 0, houseRake := 300,
    gunChamber := some 0, bulletChamber := 0, consecutivePasses := 0,
    forcedShoot := false, consecutiveSafeShots := 0, lastDeathTime := none,
    createdAt := 0, chambers := none }

/-- A concrete active two-player game (bullet in the current chamber), one
shot away from a win. -/
def exActive2 : Game :=
  { gameId := "game-2", channelId := "chan", spaceId := "space",
    state := .active, players := [pA, pB], alivePlayers := [pA, pB],
    currentTurnIndex := 0, poolA := 1800, poolB := 0, houseRake := 200,
    gunChamber := some 0, bulletChamber := 0, consecutivePasses := 0,
    forcedShoot := false, consecutiveSafeShots := 0, lastDeathTime := none,
    createdAt := 0, chambers := none }

/-- A concrete active three-player game with an empty chamber under the
hammer and the safe-shot counter one below the default ceiling. -/
def exSafe : Game :=
  { gameId := "game-3", channelId := "chan", spaceId := "space",
    state := .active, players := [pA, pB, pC], alivePlayers := [pA, pB, pC],
    currentTurnIndex := 0, poolA := 2700, poolB := 0, houseRake := 300,
    gunChamber := some 0, bulletChamber := 5, consecutivePasses := 0,
    forcedShoot := false, consecutiveSafeShots := 17, lastDeathTime := none,
    createdAt := 0, chambers := none }

/-- A concrete waiting three-player game with poolA 901 and houseRake 99
(total entries 1000). -/
def exWaiting3 : Game :=
  { gameId := "game-4", channelId := "chan", spaceId := "space",
    state := .waiting, players := [pA, pB, pC], alivePlayers := [pA, pB, pC],
    currentTurnIndex := 0, poolA := 901, poolB := 0, houseRake := 99,
    gunChamber := some 0, bulletChamber := 0, consecutivePasses := 0,
    forcedShoot := false, consecutiveSafeShots := 0, lastDeathTime := none,
    createdAt := 0, chambers := none }

/-- A concrete waiting game holding only the player Alice. -/
def exWaitingAlice : Game :=
  { gameId := "game-5", channelId := "chan", spaceId := "space",
    state := .waiting, players := [pAlice], alivePlayers := [pAlice],
    currentTurnIndex := 0, poolA := 900, poolB := 0, houseRake := 100,
    gunChamber := some 0, bulletChamber := 0, consecutivePasses := 0,
    forcedShoot := false, consecutiveSafeShots := 0, lastDeathTime := none,
    createdAt := 0, chambers := none }

/-- The scenario of section 8 of the spec replayed through the code: a game
created empty, then joined by three players whose entries total 1000. -/
def exG0 : Game := createGame "game-6" "chan" "space" 0 0

/-- Registry after the first join (entry 334). -/
def exReg1 : Option Game := (addPlayer (some exG0) "u1" "Alpha" 334 DEFAULT_CONFIG).reg

/-- Registry after the second join (entry 333). -/
def exReg2 : Option Game := (addPlayer exReg1 "u2" "Beta" 333 DEFAULT_CONFIG).reg

/-- Registry after the third join (entry 333): a waiting game with three
joined players, poolA 901 and houseRake 99. -/
def exReg3 : Option Game := (addPlayer exReg2 "u3" "Gamma" 333 DEFAULT_CONFIG).reg

/-- The default configuration with the chamber count set to 3, to exhibit
the mismatch between the configured chamber count and the hard-coded range
of randomBulletPosition. -/
def cfgChambers3 : GameConfig := { DEFAULT_CONFIG with chambers := 3 }



/-- The registry invariant of section 8 of the spec: alivePlayers is exactly
the alive subset of players in relative order, and while the game is active
with a non-empty table the turn index is in range. -/
def Inv (g : Game) : Prop :=
  g.alivePlayers = g.players.filter (·.isAlive) ∧
  (g.state = .active → g.alivePlayers ≠ [] →
    g.currentTurnIndex < g.alivePlayers.length)

instance (g : Game) : Decidable (Inv g) := by
  unfold Inv; infer_instance

/-- Inv lifted to a registry entry. -/
def OptInv : Option Game → Prop
  | none => True
  | some g => Inv g

instance (o : Option Game) : Decidable (OptInv o) := by
  cases o <;> unfold OptInv <;> infer_instance

/-- Inv for every game observable in a handleAction result: the final
snapshot and the registry entry. -/
def HAResultInv (res : HAResult) : Prop :=
  OptInv res.game? ∧ OptInv res.regAfter

instance (res : HAResult) : Decidable (HAResultInv res) := by
  unfold HAResultInv; infer_instance

/-- Inv for every game observable in a stopGame result. -/
def StopResultInv : StopResult → Prop
  | .failure _ reg => OptInv reg
  | .ok g _ => Inv g

instance (res : StopResult) : Decidable (StopResultInv res) := by
  cases res <;> unfold StopResultInv <;> infer_instance

lemma markDead_isAlive (v : String) (p : Player) :
    (markDead v p).isAlive = if p.userId = v then false else p.isAlive := by
  unfold markDead; split <;> rfl

lemma filter_map_markDead (v : String) (l : List Player) :
    ((l.filter (·.isAlive)).map (markDead v)).filter (·.isAlive) =
    (l.map (markDead v)).filter (·.isAlive) := by
  induction l with
  | nil => rfl
  | cons p t ih =>
    by_cases hv : p.userId = v <;> by_cases ha : p.isAlive <;>
      simp [markDead, hv, ha, ih]

lemma inv_advanceTurn (g : Game) (h : Inv g) : Inv (advanceTurn g) := by
  unfold advanceTurn
  split
  · exact h
  · next hne =>
    refine ⟨h.1, fun _ _ => ?_⟩
    exact Nat.mod_lt _ (Nat.pos_of_ne_zero hne)

lemma inv_of_not_active (g' : Game) (hS : g'.state ≠ .active)
    (hfe : g'.alivePlayers = g'.players.filter (·.isAlive)) : Inv g' :=
  ⟨hfe, fun hs => absurd hs hS⟩

lemma okResultInv (msg : Msg) (del : Bool) (g : Game) (h : Inv g) :
    HAResultInv (.ok msg g (if del = true then none else some g)) := by
  cases del
  · exact ⟨h, h⟩
  · exact ⟨h, trivial⟩

lemma inv_postActionPhase (cfg : GameConfig) (now : Nat) (msg : Msg)
    (pd del : Bool) (g : Game) (h : Inv g) :
    HAResultInv (postActionPhase cfg now msg pd del g) := by
  unfold postActionPhase
  split
  · exact ⟨inv_of_not_active _ (fun hs => nomatch hs) h.1, trivial⟩
  · split
    · exact okResultInv _ _ _ (inv_advanceTurn g h)
    · exact okResultInv _ _ _ h

lemma inv_passBranch (g : Game) (cfg : GameConfig) (now : Nat) (h : Inv g) :
    HAResultInv (passBranch g cfg now) := by
  unfold passBranch
  apply inv_postActionPhase
  split <;> exact ⟨h.1, h.2⟩

lemma inv_eliminationUpdate (g : Game) (v : String) (now : Nat) (h : Inv g) :
    Inv (eliminationUpdate g v now) := by
  unfold eliminationUpdate
  constructor
  · show compactedAlive g v = (g.players.map (markDead v)).filter (·.isAlive)
    unfold compactedAlive
    rw [h.1, filter_map_markDead]
  · intro _ hne
    have hlen : (compactedAlive g v).length ≠ 0 := by
      intro h0
      exact hne (List.length_eq_zero.mp h0)
    show (if (compactedAlive g v).length ≤ g.currentTurnIndex
        then 0 else g.currentTurnIndex) < (compactedAlive g v).length
    split
    · omega
    · next hgt => omega

lemma inv_shootBranch (g : Game) (cp : Player) (r : ℚ) (now : Nat)
    (cfg : GameConfig) (h : Inv g) :
    HAResultInv (shootBranch g cp r now cfg) := by
  simp only [shootBranch]
  have h1 : Inv { g with consecutivePasses := 0, forcedShoot := false } :=
    ⟨h.1, h.2⟩
  split
  · have h2 := inv_eliminationUpdate
      { g with consecutivePasses := 0, forcedShoot := false } cp.userId now h1
    split
    · exact inv_postActionPhase _ _ _ _ _ _
        (inv_of_not_active _ (fun hs => nomatch hs) h2.1)
    · exact inv_postActionPhase _ _ _ _ _ _ ⟨h2.1, h2.2⟩
  · have h2 : Inv { g with consecutivePasses := 0, forcedShoot := false, consecutiveSafeShots := g.consecutiveSafeShots + 1 } := ⟨h.1, h.2⟩
    split
    · exact inv_postActionPhase _ _ _ _ _ _
        (inv_of_not_active _ (fun hs => nomatch hs) h2.1)
    · apply inv_postActionPhase
      show Inv (advanceChamber _)
      split <;> exact ⟨h.1, h.2⟩

lemma tdiv_eq_ediv_nonneg (a b : Int) (ha : 0 ≤ a) (hb : 0 ≤ b) :
    a.tdiv b = a / b := by
  lift a to Nat using ha
  lift b to Nat using hb
  rfl

lemma advanceTurn_alivePlayers (g : Game) :
    (advanceTurn g).alivePlayers = g.alivePlayers := by
  unfold advanceTurn; split <;> rfl

lemma advanceTurn_state (g : Game) : (advanceTurn g).state = g.state := by
  unfold advanceTurn; split <;> rfl

lemma advanceTurn_forcedShoot (g : Game) :
    (advanceTurn g).forcedShoot = g.forcedShoot := by
  unfold advanceTurn; split <;> rfl

lemma advanceTurn_consecutivePasses (g : Game) :
    (advanceTurn g).consecutivePasses = g.consecutivePasses := by
  unfold advanceTurn; split <;> rfl

lemma postActionPhase_game? (cfg : GameConfig) (now : Nat) (msg : Msg)
    (pd del : Bool) (g : Game) :
    (postActionPhase cfg now msg pd del g).game? =
      some (if g.state = .active ∧ durationExceeded cfg g now then
          { g with state := .finished }
        else if g.state = .active ∧ pd = false then advanceTurn g else g) := by
  unfold postActionPhase
  split
  · rfl
  · split <;> rfl

lemma handleAction_guards (g : Game) (uid : String) (a : Action) (r : ℚ)
    (now : Nat) (cfg : GameConfig) (cp : Player)
    (hs : g.state = .active)
    (hcp : g.alivePlayers.get? g.currentTurnIndex = some cp)
    (hid : turnIdentityMatches cp uid)
    (hal : cp.isAlive = true)
    (hf : a = .pass → g.forcedShoot = false) :
    handleAction (some g) uid a r now cfg =
      match a with
      | .pass => passBranch g cfg now
      | .shoot => shootBranch g cp r now cfg := by
  simp only [handleAction, hcp]
  rw [if_neg (by simp [hs])]
  rw [if_neg (not_not_intro hid)]
  rw [if_neg (by simp [hal])]
  rw [if_neg (fun hc => Bool.noConfusion ((hf hc.1).symm.trans hc.2))]
  cases a <;> rfl

/-- C8: for every non-negative entry amount and rake percentage,
calculateEntryDistribution returns rake = floor(amount * rakePercent / 100)
and netToPoolA = amount - rake, so rake + netToPoolA = amount: no value is
created or lost. -/
theorem calculateEntryDistribution_conserves (amount rakePercent : Int)
    (ha : 0 ≤ amount) (hp : 0 ≤ rakePercent) :
    (calculateEntryDistribution amount rakePercent).1 =
      amount * rakePercent / 100 ∧
    (calculateEntryDistribution amount rakePercent).2 =
      amount - (calculateEntryDistribution amount rakePercent).1 ∧
    (calculateEntryDistribution amount rakePercent).1 +
      (calculateEntryDistribution amount rakePercent).2 = amount := by
  refine ⟨?_, rfl, ?_⟩
  · show (amount * rakePercent).tdiv 100 = amount * rakePercent / 100
    exact tdiv_eq_ediv_nonneg _ _ (mul_nonneg ha hp) (by norm_num)
  · show (amount * rakePercent).tdiv 100 +
      (amount - (amount * rakePercent).tdiv 100) = amount
    ring

/-- Witness for C8 at amount 1000 and rake percentage 10. -/
theorem calculateEntryDistribution_conserves_witness :
    ((0:Int) ≤ 1000 ∧ (0:Int) ≤ 10) ∧
    ((calculateEntryDistribution 1000 10).1 = 1000 * 10 / 100 ∧
     (calculateEntryDistribution 1000 10).2 =
       1000 - (calculateEntryDistribution 1000 10).1 ∧
     (calculateEntryDistribution 1000 10).1 +
       (calculateEntryDistribution 1000 10).2 = 1000) :=
  ⟨by decide, calculateEntryDistribution_conserves 1000 10 (by decide) (by decide)⟩

/-- C1 (code bug): advanceChamber computes (gunChamber + 1) % game.chambers,
but the Game record has no chambers value (createGame leaves the property
absent), so on every manager-created game the update yields NaN rather than
(gunChamber + 1) mod chambers, and the invariant 0 <= chamberPosition <
chambers is destroyed rather than preserved. -/
theorem advanceChamber_yields_nan (g : Game) (h : g.chambers = none) :
    (advanceChamber g).gunChamber = none ∧
    (∀ id ch sp r now, (createGame id ch sp r now).chambers = none) := by
  constructor
  · show jsMod (jsSucc g.gunChamber) g.chambers = none
    rw [h]
    cases jsSucc g.gunChamber <;> rfl
  · intro _ _ _ _ _
    rfl

/-- Witness for C1 on a concrete active game whose chamber position is 0. -/
theorem advanceChamber_yields_nan_witness :
    exActive3.chambers = none ∧
    ((advanceChamber exActive3).gunChamber = none ∧
     (∀ id ch sp r now, (createGame id ch sp r now).chambers = none)) :=
  ⟨by decide, advanceChamber_yields_nan exActive3 (by decide)⟩

/-- Counterexample to C2 as stated: replaying the specification scenario
(three joins totalling 1000) through addPlayer gives a waiting game with
poolA 901 and houseRake 99; stopGame then refunds 300 per player out of
poolA alone and keeps the house rake, not 333 per player out of
poolA + houseRake. -/
theorem stopGame_waiting_scenario_counterexample :
    (exReg3.map (fun g => g.state)) = some .waiting ∧
    (exReg3.map (fun g => g.players.length)) = some 3 ∧
    (exReg3.map (fun g => g.poolA + g.houseRake)) = some 1000 ∧
    (stopGame exReg3).outcome? = some (.aliveSplit 300) ∧
    ((stopGame exReg3).game?.map (fun g => g.houseRake)) = some 99 ∧
    (300 : Int) ≠ 333 := by
  refine ⟨rfl, rfl, rfl, rfl, rfl, by decide⟩

/-- C2 as amended: for every waiting game with at least one joined (hence
alive) player and positive poolA, stopGame refunds floor(poolA / n) of
poolA only to each of the n alive players, keeps the house rake, marks the
game finished and removes it from the registry; the poolA + houseRake
split of the claim is only reachable when poolA = 0. -/
theorem stopGame_waiting_splits_poolA_only (g : Game)
    (hw : g.state = .waiting) (ha : 0 < g.alivePlayers.length)
    (hp : 0 < g.poolA) :
    stopGame (some g) =
      .ok { g with state := .finished }
        (.aliveSplit (g.poolA.tdiv (g.alivePlayers.length : Int))) ∧
    g.poolA.tdiv (g.alivePlayers.length : Int) =
      g.poolA / (g.alivePlayers.length : Int) := by
  constructor
  · simp only [stopGame]
    rw [if_neg (by rw [hw]; exact fun hc => nomatch hc)]
    rw [if_pos ⟨ha, hp⟩]
  · exact tdiv_eq_ediv_nonneg _ _ (le_of_lt hp) (Int.ofNat_nonneg _)

/-- Witness for the amended C2 on a concrete waiting three-player game with
poolA 901 and houseRake 99. -/
theorem stopGame_waiting_splits_poolA_only_witness :
    (exWaiting3.state = .waiting ∧ 0 < exWaiting3.alivePlayers.length ∧
      0 < exWaiting3.poolA) ∧
    (stopGame (some exWaiting3) =
      .ok { exWaiting3 with state := .finished }
        (.aliveSplit (exWaiting3.poolA.tdiv (exWaiting3.alivePlayers.length : Int))) ∧
     exWaiting3.poolA.tdiv (exWaiting3.alivePlayers.length : Int) =
       exWaiting3.poolA / (exWaiting3.alivePlayers.length : Int)) :=
  ⟨by decide, stopGame_waiting_splits_poolA_only exWaiting3 (by decide)
    (by decide) (by decide)⟩

/-- Counterexample to C3 as stated: with the chamber count configured to 3,
the draw r = 5/6 makes randomBulletPosition (and hence resetGun) place the
bullet at position 5, outside [0, chambers). -/
theorem randomBulletPosition_ignores_configured_chambers :
    (0:ℚ) ≤ 5/6 ∧ (5/6:ℚ) < 1 ∧
    cfgChambers3.chambers = 3 ∧
    (resetGun exWaiting3 (5/6)).bulletChamber = 5 ∧
    ¬ (resetGun exWaiting3 (5/6)).bulletChamber < cfgChambers3.chambers := by
  have h5 : randomBulletPosition (5/6) = 5 := by
    unfold randomBulletPosition
    norm_num
  refine ⟨by norm_num, by norm_num, rfl, h5, ?_⟩
  show ¬ randomBulletPosition (5/6) < (3:Int)
  rw [h5]
  decide

/-- C3 as amended: the bullet position drawn at game creation and by
resetGun is floor(r * 6) for the uniform source r in [0,1): it always lies
in [0,6) whatever chamber count is configured (so in [0, chambers) exactly
when chambers is at least 6, as in the default configuration), its preimage
intervals all have width 1/6 (uniformity over [0,6)), and resetGun also
sets the chamber position back to 0. -/
theorem resetGun_uniform_over_six (r : ℚ) (h0 : 0 ≤ r) (h1 : r < 1)
    (g : Game) :
    (resetGun g r).gunChamber = some 0 ∧
    (resetGun g r).bulletChamber = randomBulletPosition r ∧
    0 ≤ randomBulletPosition r ∧ randomBulletPosition r < 6 ∧
    (∀ id ch sp now,
      (createGame id ch sp r now).bulletChamber = randomBulletPosition r) ∧
    (∀ k : Int,
      randomBulletPosition r = k ↔ (k:ℚ)/6 ≤ r ∧ r < ((k:ℚ)+1)/6) := by
  refine ⟨rfl, rfl, ?_, ?_, fun _ _ _ _ => rfl, ?_⟩
  · show (0:Int) ≤ ⌊r * 6⌋
    positivity
  · show ⌊r * 6⌋ < (6:Int)
    have h6 : r * 6 < ((6:Int) : ℚ) := by push_cast; nlinarith
    exact Int.floor_lt.mpr h6
  · intro k
    unfold randomBulletPosition
    rw [Int.floor_eq_iff]
    constructor
    · rintro ⟨hk1, hk2⟩
      constructor
      · calc (k:ℚ)/6 = (k:ℚ) * (1/6) := by ring
          _ ≤ (r * 6) * (1/6) := by
              exact mul_le_mul_of_nonneg_right hk1 (by norm_num)
          _ = r := by ring
      · calc r = (r * 6) * (1/6) := by ring
          _ < ((k:ℚ) + 1) * (1/6) := by
              exact mul_lt_mul_of_pos_right hk2 (by norm_num)
          _ = ((k:ℚ)+1)/6 := by ring
    · rintro ⟨hk1, hk2⟩
      constructor
      · calc (k:ℚ) = ((k:ℚ)/6) * 6 := by ring
          _ ≤ r * 6 := by exact mul_le_mul_of_nonneg_right hk1 (by norm_num)
      · calc r * 6 < (((k:ℚ)+1)/6) * 6 := by
              exact mul_lt_mul_of_pos_right hk2 (by norm_num)
          _ = (k:ℚ) + 1 := by ring

/-- Witness for the amended C3 at the draw r = 0. -/
theorem resetGun_uniform_over_six_witness :
    ((0:ℚ) ≤ 0 ∧ (0:ℚ) < 1) ∧
    ((resetGun exWaiting3 0).gunChamber = some 0 ∧
     (resetGun exWaiting3 0).bulletChamber = randomBulletPosition 0 ∧
     0 ≤ randomBulletPosition 0 ∧ randomBulletPosition 0 < 6 ∧
     (∀ id ch sp now,
       (createGame id ch sp 0 now).bulletChamber = randomBulletPosition 0) ∧
     (∀ k : Int,
       randomBulletPosition 0 = k ↔ (k:ℚ)/6 ≤ 0 ∧ (0:ℚ) < ((k:ℚ)+1)/6)) :=
  ⟨⟨le_refl 0, zero_lt_one⟩,
    resetGun_uniform_over_six 0 (le_refl 0) zero_lt_one exWaiting3⟩

/-- C10: addPlayer compares userIds with case-sensitive equality, so a
waiting game with spare capacity accepts an identity that differs from a
joined player's userId only in letter case and appends it as a second
distinct Player, even though the very same pair of identities is matched by
handleAction's case-insensitive turn check (turnIdentityMatches). -/
theorem addPlayer_case_sensitive_duplicate_check (g : Game)
    (cfg : GameConfig) (uid disp : String) (amt : Int) (q : Player)
    (hw : g.state = .waiting)
    (hcap : g.players.length < cfg.maxPlayers)
    (hq : q ∈ g.players)
    (hlow : lowerStr q.userId = lowerStr uid)
    (hne : q.userId ≠ uid)
    (hnodup : ∀ p ∈ g.players, p.userId ≠ uid) :
    (addPlayer (some g) uid disp amt cfg).success = true ∧
    (addPlayer (some g) uid disp amt cfg).reg =
      some { g with
        players := g.players ++
          [{ userId := uid, displayName := disp, isAlive := true,
             entryAmount := amt }]
        alivePlayers := g.alivePlayers ++
          [{ userId := uid, displayName := disp, isAlive := true,
             entryAmount := amt }]
        poolA := g.poolA + (calculateEntryDistribution amt cfg.rakePercent).2
        houseRake :=
          g.houseRake + (calculateEntryDistribution amt cfg.rakePercent).1 } ∧
    turnIdentityMatches q uid := by
  have hany : g.players.any (fun p => p.userId = uid) = false := by
    rw [List.any_eq_false]
    intro p hp
    simpa using hnodup p hp
  have h1 : ¬ g.state ≠ GameState.waiting := by rw [hw]; exact fun hc => hc rfl
  have h3 : ¬ cfg.maxPlayers ≤ g.players.length := Nat.not_le.mpr hcap
  refine ⟨?_, ?_, hlow⟩
  · simp only [addPlayer]
    rw [if_neg h1, if_neg (by rw [hany]; exact fun hc => nomatch hc),
      if_neg h3]
  · simp only [addPlayer]
    rw [if_neg h1, if_neg (by rw [hany]; exact fun hc => nomatch hc),
      if_neg h3]

/-- Witness for C10: the game holding Alice accepts the identity alice. -/
theorem addPlayer_case_sensitive_duplicate_check_witness :
    (exWaitingAlice.state = .waiting ∧
      exWaitingAlice.players.length < DEFAULT_CONFIG.maxPlayers ∧
      pAlice ∈ exWaitingAlice.players ∧
      lowerStr pAlice.userId = lowerStr "alice" ∧
      pAlice.userId ≠ "alice" ∧
      (∀ p ∈ exWaitingAlice.players, p.userId ≠ "alice")) ∧
    ((addPlayer (some exWaitingAlice) "alice" "alice" 500
        DEFAULT_CONFIG).success = true ∧
     (addPlayer (some exWaitingAlice) "alice" "alice" 500
        DEFAULT_CONFIG).reg =
       some { exWaitingAlice with
         players := exWaitingAlice.players ++
           [{ userId := "alice", displayName := "alice", isAlive := true,
              entryAmount := 500 }]
         alivePlayers := exWaitingAlice.alivePlayers ++
           [{ userId := "alice", displayName := "alice", isAlive := true,
              entryAmount := 500 }]
         poolA := exWaitingAlice.poolA +
           (calculateEntryDistribution 500 DEFAULT_CONFIG.rakePercent).2
         houseRake := exWaitingAlice.houseRake +
           (calculateEntryDistribution 500 DEFAULT_CONFIG.rakePercent).1 } ∧
     turnIdentityMatches pAlice "alice") :=
  ⟨by decide,
    addPlayer_case_sensitive_duplicate_check exWaitingAlice DEFAULT_CONFIG
      "alice" "alice" 500 pAlice (by decide) (by decide) (by decide)
      (by decide) (by decide) (by decide)⟩

lemma resetGun_alivePlayers (g : Game) (r : ℚ) :
    (resetGun g r).alivePlayers = g.alivePlayers := rfl

lemma resetGun_currentTurnIndex (g : Game) (r : ℚ) :
    (resetGun g r).currentTurnIndex = g.currentTurnIndex := rfl

lemma eliminationUpdate_alivePlayers (g : Game) (v : String) (now : Nat) :
    (eliminationUpdate g v now).alivePlayers = compactedAlive g v := rfl

lemma eliminationUpdate_currentTurnIndex (g : Game) (v : String) (now : Nat) :
    (eliminationUpdate g v now).currentTurnIndex =
      if (compactedAlive g v).length ≤ g.currentTurnIndex then 0
      else g.currentTurnIndex := rfl

lemma compactedAlive_pass_reset (g : Game) (v : String) :
    compactedAlive { g with consecutivePasses := 0, forcedShoot := false } v =
      compactedAlive g v := rfl

lemma postActionPhase_map_stable {α : Type} (cfg : GameConfig) (now : Nat)
    (msg : Msg) (pd del : Bool) (g : Game) (f : Game → α)
    (hfin : f { g with state := .finished } = f g)
    (hadv : f (advanceTurn g) = f g) :
    (postActionPhase cfg now msg pd del g).game?.map f = some (f g) := by
  rw [postActionPhase_game?]
  simp only [Option.map]
  split
  · rw [hfin]
  · split
    · rw [hadv]
    · rfl

lemma postActionPhase_dead_map {α : Type} (cfg : GameConfig) (now : Nat)
    (msg : Msg) (del : Bool) (g : Game) (f : Game → α)
    (hfin : f { g with state := .finished } = f g) :
    (postActionPhase cfg now msg true del g).game?.map f = some (f g) := by
  rw [postActionPhase_game?]
  simp only [Option.map]
  split
  · rw [hfin]
  · split
    · next hc => exact Bool.noConfusion hc.2
    · rfl

/-- C4: when a shoot finds the bullet and exactly one player remains alive
after the elimination, handleAction finishes the game, awards the whole of
poolA to the sole surviving player in the win message, and removes the game
from the registry. -/
theorem shoot_win_terminal (g : Game) (uid : String) (r : ℚ) (now : Nat)
    (cfg : GameConfig) (cp w : Player)
    (hs : g.state = .active)
    (hcp : g.alivePlayers.get? g.currentTurnIndex = some cp)
    (hid : turnIdentityMatches cp uid)
    (hal : cp.isAlive = true)
    (hb : checkChamber g = true)
    (hw : compactedAlive g cp.userId = [w]) :
    (handleAction (some g) uid .shoot r now cfg).isOk = true ∧
    (handleAction (some g) uid .shoot r now cfg).regAfter = none ∧
    (handleAction (some g) uid .shoot r now cfg).game?.map
      (fun g' => g'.state) = some .finished ∧
    (handleAction (some g) uid .shoot r now cfg).game?.map
      (fun g' => g'.alivePlayers) = some [w] ∧
    (handleAction (some g) uid .shoot r now cfg).msg? =
      some (.bangWin w.userId g.poolA) := by
  have heq : handleAction (some g) uid .shoot r now cfg =
      shootBranch g cp r now cfg :=
    handleAction_guards g uid .shoot r now cfg cp hs hcp hid hal
      (fun hc => nomatch hc)
  have hb1 : checkChamber
      { g with consecutivePasses := 0, forcedShoot := false } = true := hb
  have hw1 : compactedAlive
      { g with consecutivePasses := 0, forcedShoot := false } cp.userId =
      [w] := hw
  rw [heq]
  simp only [shootBranch, eliminationUpdate, resetGun, hb1, hw1,
    postActionPhase, advanceTurn, if_true, HAResult.isOk, HAResult.regAfter,
    HAResult.game?, HAResult.msg?]
  simp

/-- Witness for C4 on a concrete two-player game with the bullet under the
hammer: the shot by the first player ends the game in favour of the second. -/
theorem shoot_win_terminal_witness :
    (exActive2.state = .active ∧
      exActive2.alivePlayers.get? exActive2.currentTurnIndex = some pA ∧
      turnIdentityMatches pA "u1" ∧ pA.isAlive = true ∧
      checkChamber exActive2 = true ∧
      compactedAlive exActive2 pA.userId = [pB]) ∧
    ((handleAction (some exActive2) "u1" .shoot 0 0 DEFAULT_CONFIG).isOk = true ∧
     (handleAction (some exActive2) "u1" .shoot 0 0 DEFAULT_CONFIG).regAfter = none ∧
     (handleAction (some exActive2) "u1" .shoot 0 0 DEFAULT_CONFIG).game?.map
       (fun g' => g'.state) = some .finished ∧
     (handleAction (some exActive2) "u1" .shoot 0 0 DEFAULT_CONFIG).game?.map
       (fun g' => g'.alivePlayers) = some [pB] ∧
     (handleAction (some exActive2) "u1" .shoot 0 0 DEFAULT_CONFIG).msg? =
       some (.bangWin pB.userId exActive2.poolA)) :=
  ⟨by decide,
    shoot_win_terminal exActive2 "u1" 0 0 DEFAULT_CONFIG pA pB (by decide)
      (by decide) (by decide) (by decide) (by decide) (by decide)⟩

/-- C5: after a non-final elimination handleAction performs no explicit
turn advance: the final snapshot has the compacted alive list, and its turn
index is the old one unless that index is at or past the end of the
compacted list, in which case it wraps to 0. -/
theorem elimination_keeps_turn_slot (g : Game) (uid : String) (r : ℚ)
    (now : Nat) (cfg : GameConfig) (cp : Player)
    (hs : g.state = .active)
    (hcp : g.alivePlayers.get? g.currentTurnIndex = some cp)
    (hid : turnIdentityMatches cp uid)
    (hal : cp.isAlive = true)
    (hb : checkChamber g = true)
    (hlen : 2 ≤ (compactedAlive g cp.userId).length) :
    (handleAction (some g) uid .shoot r now cfg).game?.map
      (fun g' => (g'.currentTurnIndex, g'.alivePlayers)) =
    some
      (if (compactedAlive g cp.userId).length ≤ g.currentTurnIndex then 0
       else g.currentTurnIndex,
       compactedAlive g cp.userId) := by
  have heq : handleAction (some g) uid .shoot r now cfg =
      shootBranch g cp r now cfg :=
    handleAction_guards g uid .shoot r now cfg cp hs hcp hid hal
      (fun hc => nomatch hc)
  have hb1 : checkChamber
      { g with consecutivePasses := 0, forcedShoot := false } = true := hb
  have hne1 : ((compactedAlive g cp.userId).length = 1) = False := by
    simp only [eq_iff_iff, iff_false]
    omega
  rw [heq]
  simp only [shootBranch, hb1, if_true, resetGun_alivePlayers,
    eliminationUpdate_alivePlayers, compactedAlive_pass_reset, hne1, if_false]
  rw [postActionPhase_dead_map]
  · simp only [resetGun_currentTurnIndex, eliminationUpdate_currentTurnIndex,
      resetGun_alivePlayers, eliminationUpdate_alivePlayers,
      compactedAlive_pass_reset]
  · rfl

/-- Witness for C5 on a concrete three-player game with the bullet under
the hammer: after the first player is eliminated the turn index stays 0,
now pointing at the second player. -/
theorem elimination_keeps_turn_slot_witness :
    (exActive3.state = .active ∧
      exActive3.alivePlayers.get? exActive3.currentTurnIndex = some pA ∧
      turnIdentityMatches pA "u1" ∧ pA.isAlive = true ∧
      checkChamber exActive3 = true ∧
      2 ≤ (compactedAlive exActive3 pA.userId).length) ∧
    ((handleAction (some exActive3) "u1" .shoot 0 0 DEFAULT_CONFIG).game?.map
       (fun g' => (g'.currentTurnIndex, g'.alivePlayers)) =
     some
       (if (compactedAlive exActive3 pA.userId).length ≤
           exActive3.currentTurnIndex then 0
        else exActive3.currentTurnIndex,
        compactedAlive exActive3 pA.userId)) :=
  ⟨by decide,
    elimination_keeps_turn_slot exActive3 "u1" 0 0 DEFAULT_CONFIG pA
      (by decide) (by decide) (by decide) (by decide) (by decide) (by decide)⟩

/-- C6: a pass sets forcedShoot exactly when it brings consecutivePasses up
to the alive-player count; once forcedShoot is set, the turn holder's next
pass fails and leaves the registry entry unchanged; and any shoot clears
forcedShoot and resets consecutivePasses to 0. -/
theorem forcedShoot_protocol (g : Game) (uid : String) (r : ℚ) (now : Nat)
    (cfg : GameConfig) (cp : Player)
    (hs : g.state = .active)
    (hcp : g.alivePlayers.get? g.currentTurnIndex = some cp)
    (hid : turnIdentityMatches cp uid)
    (hal : cp.isAlive = true) :
    (g.forcedShoot = true →
      handleAction (some g) uid .pass r now cfg =
        .failure .mustShoot (some g)) ∧
    (g.forcedShoot = false →
      (handleAction (some g) uid .pass r now cfg).game?.map
        (fun g' => g'.forcedShoot) =
      some (decide (g.alivePlayers.length ≤ g.consecutivePasses + 1))) ∧
    (∀ g', (handleAction (some g) uid .shoot r now cfg).game? = some g' →
      g'.forcedShoot = false ∧ g'.consecutivePasses = 0) := by
  refine ⟨?_, ?_, ?_⟩
  · intro hforced
    simp only [handleAction, hcp]
    rw [if_neg (by simp [hs])]
    rw [if_neg (not_not_intro hid)]
    rw [if_neg (by simp [hal])]
    rw [if_pos (⟨by trivial, hforced⟩ : _ ∧ _)]
  · intro hnf
    have heq : handleAction (some g) uid .pass r now cfg =
        passBranch g cfg now :=
      handleAction_guards g uid .pass r now cfg cp hs hcp hid hal
        (fun _ => hnf)
    rw [heq]
    simp only [passBranch]
    rw [postActionPhase_map_stable]
    · by_cases hfc : g.alivePlayers.length ≤ g.consecutivePasses + 1 <;>
        simp [hfc, hnf]
    · rfl
    · exact advanceTurn_forcedShoot _
  · intro g' hg'
    have heq : handleAction (some g) uid .shoot r now cfg =
        shootBranch g cp r now cfg :=
      handleAction_guards g uid .shoot r now cfg cp hs hcp hid hal
        (fun hc => nomatch hc)
    have hmap : (shootBranch g cp r now cfg).game?.map
        (fun x => (x.forcedShoot, x.consecutivePasses)) = some (false, 0) := by
      simp only [shootBranch]
      split
      · split <;>
        · rw [postActionPhase_dead_map]
          all_goals rfl
      · split <;>
        · rw [postActionPhase_map_stable]
          all_goals
            first
            | (split <;> rfl)
            | rfl
            | simp [advanceTurn_forcedShoot, advanceTurn_consecutivePasses]
    rw [← heq, hg'] at hmap
    simp only [Option.map] at hmap
    injection hmap with hmap
    exact ⟨congrArg Prod.fst hmap, congrArg Prod.snd hmap⟩

/-- Witness for C6 on a concrete active three-player game without the
forced-shoot flag. -/
theorem forcedShoot_protocol_witness :
    (exActive3.state = .active ∧
      exActive3.alivePlayers.get? exActive3.currentTurnIndex = some pA ∧
      turnIdentityMatches pA "u1" ∧ pA.isAlive = true) ∧
    ((exActive3.forcedShoot = true →
       handleAction (some exActive3) "u1" .pass 0 0 DEFAULT_CONFIG =
         .failure .mustShoot (some exActive3)) ∧
     (exActive3.forcedShoot = false →
       (handleAction (some exActive3) "u1" .pass 0 0 DEFAULT_CONFIG).game?.map
         (fun g' => g'.forcedShoot) =
       some (decide (exActive3.alivePlayers.length ≤
         exActive3.consecutivePasses + 1))) ∧
     (∀ g',
       (handleAction (some exActive3) "u1" .shoot 0 0 DEFAULT_CONFIG).game? =
         some g' → g'.forcedShoot = false ∧ g'.consecutivePasses = 0)) :=
  ⟨by decide,
    forcedShoot_protocol exActive3 "u1" 0 0 DEFAULT_CONFIG pA (by decide)
      (by decide) (by decide) (by decide)⟩

/-- C7: when a surviving shot raises consecutiveSafeShots to the configured
ceiling, handleAction terminates the game as a successful transition: the
state becomes finished, the termination message refunds
floor(poolA / alive-count) to each remaining alive player (the remainder is
simply not distributed), and the game is removed from the registry. -/
theorem safeShot_ceiling_terminates (g : Game) (uid : String) (r : ℚ)
    (now : Nat) (cfg : GameConfig) (cp : Player)
    (hs : g.state = .active)
    (hcp : g.alivePlayers.get? g.currentTurnIndex = some cp)
    (hid : turnIdentityMatches cp uid)
    (hal : cp.isAlive = true)
    (hnb : checkChamber g = false)
    (hceil : cfg.maxSafeShots ≤ g.consecutiveSafeShots + 1)
    (hpA : 0 ≤ g.poolA) :
    (handleAction (some g) uid .shoot r now cfg).isOk = true ∧
    (handleAction (some g) uid .shoot r now cfg).regAfter = none ∧
    (handleAction (some g) uid .shoot r now cfg).game?.map
      (fun g' => g'.state) = some .finished ∧
    (handleAction (some g) uid .shoot r now cfg).game?.map
      (fun g' => g'.alivePlayers) = some g.alivePlayers ∧
    (handleAction (some g) uid .shoot r now cfg).msg? =
      some (.safeShotTermination
        (g.poolA.tdiv (g.alivePlayers.length : Int))) ∧
    g.poolA.tdiv (g.alivePlayers.length : Int) =
      g.poolA / (g.alivePlayers.length : Int) := by
  have heq : handleAction (some g) uid .shoot r now cfg =
      shootBranch g cp r now cfg :=
    handleAction_guards g uid .shoot r now cfg cp hs hcp hid hal
      (fun hc => nomatch hc)
  have hnb1 : checkChamber
      { g with consecutivePasses := 0, forcedShoot := false } = false := hnb
  have hceil1 : cfg.maxSafeShots ≤ g.consecutiveSafeShots + 1 := hceil
  rw [heq]
  refine ⟨?_, ?_, ?_, ?_, ?_,
    tdiv_eq_ediv_nonneg _ _ hpA (Int.ofNat_nonneg _)⟩ <;>
  · simp only [shootBranch, hnb1, if_false, if_pos hceil1, postActionPhase,
      HAResult.isOk, HAResult.regAfter, HAResult.game?, HAResult.msg?]
    simp

/-- Witness for C7 on a concrete three-player game one safe shot below the
default ceiling of 18, with an empty chamber under the hammer. -/
theorem safeShot_ceiling_terminates_witness :
    (exSafe.state = .active ∧
      exSafe.alivePlayers.get? exSafe.currentTurnIndex = some pA ∧
      turnIdentityMatches pA "u1" ∧ pA.isAlive = true ∧
      checkChamber exSafe = false ∧
      DEFAULT_CONFIG.maxSafeShots ≤ exSafe.consecutiveSafeShots + 1 ∧
      0 ≤ exSafe.poolA) ∧
    ((handleAction (some exSafe) "u1" .shoot 0 0 DEFAULT_CONFIG).isOk = true ∧
     (handleAction (some exSafe) "u1" .shoot 0 0 DEFAULT_CONFIG).regAfter = none ∧
     (handleAction (some exSafe) "u1" .shoot 0 0 DEFAULT_CONFIG).game?.map
       (fun g' => g'.state) = some .finished ∧
     (handleAction (some exSafe) "u1" .shoot 0 0 DEFAULT_CONFIG).game?.map
       (fun g' => g'.alivePlayers) = some exSafe.alivePlayers ∧
     (handleAction (some exSafe) "u1" .shoot 0 0 DEFAULT_CONFIG).msg? =
       some (.safeShotTermination
         (exSafe.poolA.tdiv (exSafe.alivePlayers.length : Int))) ∧
     exSafe.poolA.tdiv (exSafe.alivePlayers.length : Int) =
       exSafe.poolA / (exSafe.alivePlayers.length : Int)) :=
  ⟨by decide,
    safeShot_ceiling_terminates exSafe "u1" 0 0 DEFAULT_CONFIG pA (by decide)
      (by decide) (by decide) (by decide) (by decide) (by decide) (by decide)⟩

/-- C9: every registry operation preserves the invariant that alivePlayers
is exactly the alive subset of players in relative order and that the turn
index is in range while the game is active with a non-empty table. -/
theorem registry_ops_preserve_invariant (g : Game) (cfg : GameConfig)
    (uid disp : String) (amt : Int) (a : Action) (r : ℚ) (now : Nat)
    (h : Inv g) :
    OptInv (addPlayer (some g) uid disp amt cfg).reg ∧
    OptInv (startGame (some g) r cfg).reg ∧
    HAResultInv (handleAction (some g) uid a r now cfg) ∧
    StopResultInv (stopGame (some g)) := by
  refine ⟨?_, ?_, ?_, ?_⟩
  · simp only [addPlayer]
    split
    · exact h
    · split
      · exact h
      · split
        · exact h
        · next hnw _ _ =>
          have hwaiting : g.state = .waiting := not_not.mp hnw
          refine ⟨?_, ?_⟩
          · show g.alivePlayers ++ [_] = (g.players ++ [_]).filter (·.isAlive)
            rw [h.1, List.filter_append]
            rfl
          · intro hs
            rw [show ({ g with
                players := g.players ++ [_],
                alivePlayers := g.alivePlayers ++ [_],
                poolA := _, houseRake := _ } : Game).state = g.state from rfl,
              hwaiting] at hs
            exact absurd hs (fun hc => nomatch hc)
  · simp only [startGame]
    split
    · exact h
    · split
      · exact h
      · refine ⟨h.1, ?_⟩
        intro _ hne
        show 0 < g.alivePlayers.length
        exact List.length_pos.mpr hne
  · simp only [handleAction]
    split
    · exact ⟨trivial, h⟩
    · split
      · exact ⟨trivial, h⟩
      · split
        · exact ⟨trivial, h⟩
        · split
          · exact ⟨trivial, h⟩
          · split
            · exact ⟨trivial, h⟩
            · split
              · exact inv_passBranch g cfg now h
              · exact inv_shootBranch g _ r now cfg h
  · simp only [stopGame]
    split
    · exact h
    · exact inv_of_not_active _ (fun hc => nomatch hc) h.1

/-- Witness for C9 on a concrete active three-player game. -/
theorem registry_ops_preserve_invariant_witness :
    Inv exActive3 ∧
    (OptInv (addPlayer (some exActive3) "u1" "Delta" 100 DEFAULT_CONFIG).reg ∧
     OptInv (startGame (some exActive3) 0 DEFAULT_CONFIG).reg ∧
     HAResultInv (handleAction (some exActive3) "u1" .shoot 0 0 DEFAULT_CONFIG) ∧
     StopResultInv (stopGame (some exActive3))) :=
  ⟨by decide,
    registry_ops_preserve_invariant exActive3 DEFAULT_CONFIG "u1" "Delta"
      100 .shoot 0 0 (by decide)⟩

end BangGang
